import Mathlib

/-!
Shallow embedding of the Rainar project-service
(`src/backend/services/project-service/index.js`): template catalog with
memoization, handlebars-style variable rendering, the template-tree walkers of
the archive and repository delivery paths, and the remote-call protocols of the
repository, secrets and workflow-status endpoints.  Effects (file-system reads
and remote-host calls) are reified as explicit event traces.
-/

namespace Rainar

/-! ## String maps (JS objects as ordered association lists) -/

/-- Lookup in an association list keyed by strings (first match wins; the JS
objects modelled here have unique keys). -/
def lookupAssoc {α : Type} : List (String × α) → String → Option α
  | [], _ => none
  | p :: rest, key => if p.1 = key then some p.2 else lookupAssoc rest key

/-- Flat string-to-string configuration map, as parsed from a JSON body. -/
abbrev VarMap := List (String × String)

/-- The per-file variable object `\x7b projectName: name, ...config \x7d`
(src lines 162 and 229).  JS spread puts the caller's `config` entries after
the injected binding, so they override it; with first-match lookup that is the
`config` entries listed first. -/
def mergedVars (name : String) (config : VarMap) : VarMap :=
  config ++ [("projectName", name)]

/-- Node's POSIX `path.basename`: drop trailing separators, then keep the last
segment.  `basename "a/b" = "b"`, `basename "a/" = "a"`, `basename "/" = ""`,
`basename ".." = ".."`. -/
def basename (s : String) : String :=
  ⟨((s.data.reverse.dropWhile (fun c => c = '/')).takeWhile (fun c => c ≠ '/')).reverse⟩

/-- Node's `path.join` restricted to the shapes the service builds: an empty
accumulator yields the entry name itself, otherwise the two are joined with a
separator. -/
def joinPath (a b : String) : String :=
  if a = "" then b else a ++ "/" ++ b

/-- JS truthiness test used by the `if (!name)` / `if (!template)` guards
(src lines 101, 104, 183, 186): a missing field and the empty string are both
falsy. -/
def falsyStr : Option String → Bool
  | none => true
  | some s => s.isEmpty

/-! ## Variable renderer

Model of the handlebars engine as the source invokes it
(`handlebars.compile(data)` then `template(vars)`, src lines 161-162 and
228-229, default compile options) on interpolation mustaches: the expression
between `\x7b\x7b` and `\x7d\x7d` is trimmed of surrounding whitespace and
looked up flat in the variable object; a key absent from the object renders as
the empty string; a resolved value is HTML-escaped with the engine's default
escape set (ampersand, angle brackets, double and single quote, backtick,
equals); all other text passes through verbatim.  Mustache forms on which the
engine throws (helper calls, block, partial and comment mustaches, unclosed or
triple mustaches) are outside this model's fidelity envelope, and every
theorem below that quantifies over keys restricts them to plain identifiers
(`simpleKey`), where the engine and the model agree. -/

/-- Whether the engine's default HTML escaping rewrites this character
(handlebars `escapeExpression` escape set).  The single quote and backtick are
written by code point. -/
def isEscapedChar (c : Char) : Bool :=
  decide (c = '&') || decide (c = '<') || decide (c = '>') || decide (c = '"') ||
    decide (c = Char.ofNat 39) || decide (c = Char.ofNat 96) || decide (c = '=')

/-- The engine's default per-character HTML escaping. -/
def escapeChar (c : Char) : List Char :=
  if c = '&' then "&amp;".data
  else if c = '<' then "&lt;".data
  else if c = '>' then "&gt;".data
  else if c = '"' then "&quot;".data
  else if c = Char.ofNat 39 then "&#x27;".data
  else if c = Char.ofNat 96 then "&#x60;".data
  else if c = '=' then "&#x3D;".data
  else [c]

/-- HTML-escape a resolved value, as the engine does by default for
`\x7b\x7bexpr\x7d\x7d` output (the source does not pass `noEscape`). -/
def htmlEscape (s : String) : String :=
  ⟨s.data.foldr (fun c acc => escapeChar c ++ acc) []⟩

/-- The whitespace the engine's tokenizer skips around a mustache
expression: space, tab, carriage return, newline (tab, CR and LF written by
code point). -/
def isWsChar (c : Char) : Bool :=
  decide (c = ' ') || decide (c = Char.ofNat 9) ||
    decide (c = Char.ofNat 13) || decide (c = Char.ofNat 10)

/-- Trim the whitespace around a mustache expression. -/
def trimKey (key : List Char) : List Char :=
  ((key.dropWhile isWsChar).reverse.dropWhile isWsChar).reverse

/-- A character an identifier may consist of in the restricted key domain the
theorems use: alphanumeric or underscore. -/
def isIdentChar (c : Char) : Bool :=
  c.isAlphanum || decide (c = '_')

/-- The mustache expressions the engine does not treat as a plain path
lookup even though they look like identifiers: the path keyword `this`, the
literal keywords, and the names of the registered built-in helpers (a
zero-argument mustache naming a registered helper invokes the helper). -/
def reservedKeys : List (List Char) :=
  ["this".data, "true".data, "false".data, "null".data, "undefined".data,
   "if".data, "unless".data, "each".data, "with".data, "log".data, "lookup".data,
   "blockHelperMissing".data, "helperMissing".data]

/-- A plain identifier key: nonempty, starting with a letter or underscore,
made of identifier characters only, and not a reserved word or built-in
helper name.  On such keys the engine parses the mustache as a simple path
lookup — no helper, block or partial form, no literal, no whitespace to trim,
no dotted path — and the model agrees with the engine. -/
def simpleKey (key : List Char) : Bool :=
  match key with
  | [] => false
  | c :: _ =>
    (c.isAlpha || decide (c = '_')) && key.all isIdentChar &&
      !(reservedKeys.contains key)

/-- Scan the characters after an opening `\x7b\x7b` for the closing
`\x7d\x7d`; returns the key characters and the remainder, or `none` when the
placeholder is never closed. -/
def readKey : List Char → Option (List Char × List Char)
  | [] => none
  | [_] => none
  | c :: d :: rest =>
    if c = '}' ∧ d = '}' then some ([], rest)
    else (readKey (d :: rest)).map (fun p => (c :: p.1, p.2))

/-- Fuelled renderer body; the fuel strictly exceeds zero as long as input
remains (each step consumes at least one character), so calling it with the
input length as fuel makes it total. -/
def renderChars (vars : VarMap) : Nat → List Char → List Char
  | 0, s => s
  | _ + 1, [] => []
  | fuel + 1, '{' :: '{' :: rest =>
    match readKey rest with
    | some (key, rest2) =>
      (htmlEscape ((lookupAssoc vars ⟨trimKey key⟩).getD "")).data ++
        renderChars vars fuel rest2
    | none => '{' :: '{' :: rest
  | fuel + 1, c :: rest => c :: renderChars vars fuel rest

/-- Render one text file against a variable map. -/
def render (vars : VarMap) (s : String) : String :=
  ⟨renderChars vars s.data.length s.data⟩

/-- A file whose whole content is one `projectName` placeholder. -/
def placeholderProjectName : String := "\x7b\x7bprojectName\x7d\x7d"

/-! ## Effects

Every file-system read and every remote-host call the service performs is
reified as one trace event, in program order. -/

/-- One entry of the tree-create payload (src line 247): path, blob sha,
mode "100644" and type "blob" per rendered file. -/
structure TreeEntry where
  path : String
  sha : String
  mode : String
  type : String
  deriving DecidableEq

/-- File-system reads and remote-host calls, in the order performed. -/
inductive Event
  | fsCatalogList
  | fsManifestRead (folder : String)
  | fsDirList (dir : String)
  | fsFileRead (path : String)
  | remoteCreateRepo (name : String) (priv : Bool)
  | remoteCreateBlob (owner repo content : String)
  | remoteCreateTree (owner repo : String) (entries : List TreeEntry)
  | remoteCreateCommit (owner repo message treeSha : String) (parents : List String)
  | remoteUpdateRef (owner repo ref sha : String)
  | remoteGetPublicKey (owner repo : String)
  | remoteSecretUpsert (owner repo secretName encryptedValue keyId : String)
  | remoteListWorkflowRuns (owner repo workflowId : String)
  deriving DecidableEq

/-- Whether an event is a call to the remote version-control host. -/
def Event.isRemote : Event → Bool
  | .fsCatalogList | .fsManifestRead _ | .fsDirList _ | .fsFileRead _ => false
  | _ => true

/-- Whether an event is one of the template-catalog file-system reads
(the `readdir` of the templates root or the read of one manifest file). -/
def Event.isCatalogFs : Event → Bool
  | .fsCatalogList | .fsManifestRead _ => true
  | _ => false

/-! ## Template catalog (src lines 56-91) -/

/-- A successfully read and parsed `rainar-template.json`: its own `id` entry,
when present, plus its remaining entries. -/
structure Manifest where
  idField : Option String
  fields : List (String × String)
  deriving DecidableEq

/-- A catalog entry as built by `templates.push(\x7b id: folder, ...manifest \x7d)`
(src line 77). -/
structure Template where
  id : String
  fields : List (String × String)
  deriving DecidableEq

/-- The templates root as the catalog sees it: the directory listing (`none`
when `readdir` itself throws) and, per folder, the manifest when its read and
parse succeed. -/
structure TemplatesFs where
  rootListing : Option (List String)
  manifests : List (String × Manifest)
  deriving DecidableEq

/-- The catalog loop body (src lines 72-82): for each folder, attempt the
manifest read; on success push `\x7b id: folder, ...manifest \x7d` — the spread
is written after `id: folder`, so a manifest carrying its own `id` entry
overrides the folder-derived one; on failure skip the folder with a warning. -/
def loadTemplates (manifests : List (String × Manifest)) :
    List String → List Template × List Event
  | [] => ([], [])
  | folder :: rest =>
    let r := loadTemplates manifests rest
    match lookupAssoc manifests folder with
    | some m => ({ id := m.idField.getD folder, fields := m.fields } :: r.1,
                 Event.fsManifestRead folder :: r.2)
    | none => (r.1, Event.fsManifestRead folder :: r.2)

/-- The uncached catalog read (src lines 68-90): list the templates root, then
load each folder's manifest; a throwing `readdir` is re-thrown. -/
def getTemplatesFs (tfs : TemplatesFs) : Except Unit (List Template) × List Event :=
  match tfs.rootListing with
  | none => (.error (), [Event.fsCatalogList])
  | some folders =>
    let r := loadTemplates tfs.manifests folders
    (.ok r.1, Event.fsCatalogList :: r.2)

/-- `getTemplates` (src lines 63-91) with the module-level `templatesCache`
made explicit: a populated cache is returned untouched with no file-system
access; otherwise the file system is read and the result cached on success. -/
def getTemplates (cache : Option (List Template)) (tfs : TemplatesFs) :
    Except Unit (List Template) × Option (List Template) × List Event :=
  match cache with
  | some ts => (.ok ts, some ts, [])
  | none =>
    match getTemplatesFs tfs with
    | (.ok ts, evs) => (.ok ts, some ts, evs)
    | (.error e, evs) => (.error e, none, evs)

/-! ## Template directory trees and the two tree walkers -/

/-- One directory entry of a template tree, as `readdir(..., \x7b withFileTypes:
true \x7d)` reports it, with file contents inlined. -/
inductive FsEntry
  | file (name : String) (content : String)
  | dir (name : String) (entries : List FsEntry)

mutual
/-- One iteration of the archive path's `processDirectory` loop (src lines
154-164): a directory is listed and recursed into; a file is read, rendered
and appended to the archive under its relative path. -/
def processEntryArchive (vars : VarMap) :
    FsEntry → String → String → List (String × String) × List Event
  | .file n c, fp, ap =>
    ([(joinPath ap n, render vars c)], [Event.fsFileRead (joinPath fp n)])
  | .dir n es, fp, ap =>
    let sub := processDirectoryArchive vars es (joinPath fp n) (joinPath ap n)
    (sub.1, Event.fsDirList (joinPath fp n) :: sub.2)

/-- The archive path's `processDirectory` (src lines 152-166): walk the
entries in listing order.  Returns the appended `(path, content)` list and the
file-system events, in order. -/
def processDirectoryArchive (vars : VarMap) :
    List FsEntry → String → String → List (String × String) × List Event
  | [], _, _ => ([], [])
  | e :: rest, fp, ap =>
    let r1 := processEntryArchive vars e fp ap
    let r := processDirectoryArchive vars rest fp ap
    (r1.1 ++ r.1, r1.2 ++ r.2)
end

mutual
/-- One iteration of the repository path's `processDirectory` loop (src lines
221-231): identical walk, staging each rendered file into the `files` object
instead of the archive. -/
def processEntryRepo (vars : VarMap) :
    FsEntry → String → String → List (String × String) × List Event
  | .file n c, fp, ap =>
    ([(joinPath ap n, render vars c)], [Event.fsFileRead (joinPath fp n)])
  | .dir n es, fp, ap =>
    let sub := processDirectoryRepo vars es (joinPath fp n) (joinPath ap n)
    (sub.1, Event.fsDirList (joinPath fp n) :: sub.2)

/-- The repository path's `processDirectory` (src lines 219-233) over one
directory listing. -/
def processDirectoryRepo (vars : VarMap) :
    List FsEntry → String → String → List (String × String) × List Event
  | [], _, _ => ([], [])
  | e :: rest, fp, ap =>
    let r1 := processEntryRepo vars e fp ap
    let r := processDirectoryRepo vars rest fp ap
    (r1.1 ++ r.1, r1.2 ++ r.2)
end

/-! ## Service state and the HTTP handlers -/

/-- The templates root path (src line 28), kept abstract as a plain name. -/
def templatesDir : String := "templates"

/-- The state a request sees: the module-level template cache, the templates
root with its manifests, and the on-disk directory trees by path. -/
structure SvcState where
  cache : Option (List Template)
  tfs : TemplatesFs
  trees : List (String × List FsEntry)

/-- Outcome of POST /projects (src lines 98-178). -/
inductive ProjRes
  | badRequest (msg : String)
  | archive (filename : String) (entries : List (String × String))
  | failure
  | crashed
  deriving DecidableEq

/-- POST /projects (src lines 98-178): validate the falsy fields, read the
catalog, look the template up, sanitize name and template id, then walk the
template directory streaming rendered files into the archive.  `crashed`
models a throwing `getTemplates` (awaited outside the try block); `failure`
models the 500 taken when the template directory itself is unreadable. -/
def postProjects (name template : Option String) (config : VarMap) (st : SvcState) :
    ProjRes × Option (List Template) × List Event :=
  if falsyStr name then (.badRequest "Project name is required", st.cache, [])
  else if falsyStr template then (.badRequest "Template is required", st.cache, [])
  else
    let n := name.getD ""
    let t := template.getD ""
    match getTemplates st.cache st.tfs with
    | (.error _, cache2, evs) => (.crashed, cache2, evs)
    | (.ok ts, cache2, evs) =>
      match ts.find? (fun tpl => tpl.id == t) with
      | none => (.badRequest "Invalid template specified", cache2, evs)
      | some _ =>
        if basename n ≠ n then
          (.badRequest "Invalid project name. Path traversal characters are not allowed.",
           cache2, evs)
        else if basename t ≠ t then
          (.badRequest "Invalid template name. Path traversal characters are not allowed.",
           cache2, evs)
        else
          let tp := joinPath templatesDir (basename t)
          match lookupAssoc st.trees tp with
          | none => (.failure, cache2, evs ++ [Event.fsDirList tp])
          | some tree =>
            let w := processDirectoryArchive (mergedVars n config) tree tp ""
            (.archive (basename n ++ ".zip") w.1, cache2, evs ++ (Event.fsDirList tp :: w.2))

/-- The remote host's responses during repository creation: the created
repository object (src lines 213-216) and the shas it hands back for blobs,
tree and commit. -/
structure RemoteEnv where
  ownerLogin : String
  htmlUrl : String
  repoName : String
  defaultBranch : String
  blobSha : String → String
  treeSha : String
  commitSha : String

/-- Outcome of POST /repositories (src lines 180-277). -/
inductive RepoRes
  | unauthorized
  | badRequest (msg : String)
  | created (url owner repo : String)
  | failure
  | crashed
  deriving DecidableEq

/-- POST /repositories (src lines 180-277), behind the `isAuthenticated`
middleware (src lines 42-47): same validations as the archive path, then the
ordered protocol — create the private repository, walk and render the
template, create one blob per file, one tree with one entry per file, one
parentless commit, and point the default branch ref at it. -/
def postRepositories (token : Option String) (name template : Option String)
    (config : VarMap) (st : SvcState) (env : RemoteEnv) :
    RepoRes × Option (List Template) × List Event :=
  match token with
  | none => (.unauthorized, st.cache, [])
  | some _ =>
    if falsyStr name then (.badRequest "Project name is required", st.cache, [])
    else if falsyStr template then (.badRequest "Template is required", st.cache, [])
    else
      let n := name.getD ""
      let t := template.getD ""
      match getTemplates st.cache st.tfs with
      | (.error _, cache2, evs) => (.crashed, cache2, evs)
      | (.ok ts, cache2, evs) =>
        match ts.find? (fun tpl => tpl.id == t) with
        | none => (.badRequest "Invalid template specified", cache2, evs)
        | some _ =>
          if basename n ≠ n then
            (.badRequest "Invalid project name. Path traversal characters are not allowed.",
             cache2, evs)
          else if basename t ≠ t then
            (.badRequest "Invalid template name. Path traversal characters are not allowed.",
             cache2, evs)
          else
            let tp := joinPath templatesDir (basename t)
            let repoEv := Event.remoteCreateRepo (basename n) true
            match lookupAssoc st.trees tp with
            | none => (.failure, cache2, evs ++ [repoEv, Event.fsDirList tp])
            | some tree =>
              let owner := env.ownerLogin
              let w := processDirectoryRepo (mergedVars n config) tree tp ""
              let blobEvs := w.1.map (fun pc =>
                Event.remoteCreateBlob owner (basename n) pc.2)
              let entries := w.1.map (fun pc =>
                TreeEntry.mk pc.1 (env.blobSha pc.2) "100644" "blob")
              (.created env.htmlUrl env.ownerLogin env.repoName, cache2,
               evs ++ (repoEv :: Event.fsDirList tp :: w.2) ++ blobEvs ++
                 [Event.remoteCreateTree owner (basename n) entries,
                  Event.remoteCreateCommit owner (basename n) "Initial commit from Rainar"
                    env.treeSha [],
                  Event.remoteUpdateRef owner (basename n) ("heads/" ++ env.defaultBranch)
                    env.commitSha])

/-! ## Secrets endpoint (src lines 279-312) -/

/-- Modelled from the spec: libsodium's anonymous public-key sealing
(`crypto_box_seal`, library code outside this repository; spec section 4.6,
"encrypts the plaintext value against the repository's current public key
using anonymous public-key sealing").  The model keeps exactly what the
claims need: the sealed value is a function of the repository public key and
the plaintext, and is never the plaintext itself. -/
def sealSecret (publicKey plain : String) : String :=
  "sealed:" ++ publicKey ++ ":" ++ plain

/-- The remote host's public-key response for the repository. -/
structure SecretsEnv where
  publicKey : String
  keyId : String

/-- Outcome of POST /repositories/:owner/:repo/secrets. -/
inductive SecretsRes
  | unauthorized
  | noContent
  | failure
  deriving DecidableEq

/-- POST /repositories/:owner/:repo/secrets (src lines 279-312), behind
`isAuthenticated`: fetch the repository public key, then upsert each secret in
order, sealed against that key; respond 204.  A throwing key fetch (`env =
none`) or a missing `secrets` field reaches the catch block as a 500. -/
def postSecrets (token : Option String) (owner repo : String)
    (secrets : Option (List (String × String))) (env : Option SecretsEnv) :
    SecretsRes × List Event :=
  match token with
  | none => (.unauthorized, [])
  | some _ =>
    match env with
    | none => (.failure, [Event.remoteGetPublicKey owner repo])
    | some e =>
      match secrets with
      | none => (.failure, [Event.remoteGetPublicKey owner repo])
      | some secs =>
        (.noContent,
         Event.remoteGetPublicKey owner repo ::
           secs.map (fun s =>
             Event.remoteSecretUpsert owner repo s.1 (sealSecret e.publicKey s.2) e.keyId))

/-! ## Workflow-status endpoint (src lines 333-356) -/

/-- One workflow run as the remote's run list reports it; creation times are
modelled as naturals ordered by recency. -/
structure WorkflowRun where
  status : String
  conclusion : Option String
  createdAt : Nat
  deriving DecidableEq

/-- Outcome of GET /repositories/:owner/:repo/workflows/:workflow_id/status. -/
inductive StatusRes
  | unauthorized
  | notFoundStatus
  | runStatus (status : String) (conclusion : Option String)
  | failure
  deriving DecidableEq

/-- GET /repositories/:owner/:repo/workflows/:workflow_id/status (src lines
333-356), behind `isAuthenticated`: list the workflow runs; with no runs
answer the distinguished not-found status; otherwise report the status and
conclusion of the first run of the list exactly as the remote returned it
(src line 349 takes `workflow_runs[0]`, with the remote's descending creation
order taken on trust).  `runs = none` models a throwing remote call. -/
def getWorkflowStatus (token : Option String) (owner repo workflowId : String)
    (runs : Option (List WorkflowRun)) : StatusRes × List Event :=
  match token with
  | none => (.unauthorized, [])
  | some _ =>
    match runs with
    | none => (.failure, [Event.remoteListWorkflowRuns owner repo workflowId])
    | some [] => (.notFoundStatus, [Event.remoteListWorkflowRuns owner repo workflowId])
    | some (r :: _) =>
      (.runStatus r.status r.conclusion, [Event.remoteListWorkflowRuns owner repo workflowId])

/-- Specification-side selector (spec section 4.7, "selects the run with the
most recent creation time"): the run of the list with maximal creation time,
earlier entries winning ties. -/
def mostRecentRun : List WorkflowRun → Option WorkflowRun
  | [] => none
  | r :: rs => some (rs.foldl (fun a b => if a.createdAt < b.createdAt then b else a) r)

/-! ## Expected remote protocol of repository creation -/

/-- The remote calls the repository-creation protocol performs for a rendered
file list, in order: the repository creation, one blob per file, one tree with
one entry per file, one parentless commit on that tree, and the ref update
pointing the default branch at that commit. -/
def repoProtocolTrace (n : String) (env : RemoteEnv) (files : List (String × String)) :
    List Event :=
  Event.remoteCreateRepo n true ::
    (files.map (fun pc => Event.remoteCreateBlob env.ownerLogin n pc.2) ++
      [Event.remoteCreateTree env.ownerLogin n
         (files.map fun pc => TreeEntry.mk pc.1 (env.blobSha pc.2) "100644" "blob"),
       Event.remoteCreateCommit env.ownerLogin n "Initial commit from Rainar" env.treeSha [],
       Event.remoteUpdateRef env.ownerLogin n ("heads/" ++ env.defaultBranch) env.commitSha])

/-! ## Concrete fixtures for counterexamples and witnesses -/

/-- A templates root holding one well-formed template directory whose manifest
has no id entry of its own. -/
def cxTfs : TemplatesFs :=
  { rootListing := some ["basic-api"],
    manifests := [("basic-api",
      { idField := none, fields := [("name", "Basic API"), ("description", "demo")] })] }

/-- The catalog `cxTfs` loads. -/
def cxCatalog : List Template :=
  [{ id := "basic-api", fields := [("name", "Basic API"), ("description", "demo")] }]

/-- One-file content of the fixture template directory. -/
def cxTree : List FsEntry := [FsEntry.file "pkg.json" "hi"]

/-- Service state with a cold template cache over `cxTfs`. -/
def cxStateCold : SvcState :=
  { cache := none, tfs := cxTfs, trees := [("templates/basic-api", cxTree)] }

/-- Service state with the template cache already populated. -/
def cxStateWarm : SvcState :=
  { cache := some cxCatalog, tfs := cxTfs, trees := [("templates/basic-api", cxTree)] }

/-- A fixed set of remote responses for repository creation. -/
def cxEnv : RemoteEnv :=
  { ownerLogin := "test-user", htmlUrl := "https://github.com/test-user/demo",
    repoName := "demo", defaultBranch := "main",
    blobSha := fun _ => "blob-sha", treeSha := "tree-sha", commitSha := "commit-sha" }

/-- A workflow-run list that is not in reverse-chronological order: the run
created last (`createdAt = 2`) sits second. -/
def cxRuns : List WorkflowRun :=
  [{ status := "completed", conclusion := some "success", createdAt := 1 },
   { status := "in_progress", conclusion := none, createdAt := 2 }]

/-- A templates root whose single manifest carries its own id entry, different
from the directory name. -/
def cxTfsIdOverride : TemplatesFs :=
  { rootListing := some ["basic-api"],
    manifests := [("basic-api",
      { idField := some "other", fields := [("name", "Basic API")] })] }

/-! ## Helper lemmas: the renderer -/

/-- Scanning a key free of closing braces finds exactly the closing pair that
follows it. -/
theorem readKey_closes (key rest : List Char) (h : '}' ∉ key) :
    readKey (key ++ '}' :: '}' :: rest) = some (key, rest) := by
  induction key with
  | nil => simp [readKey]
  | cons c cs ih =>
    have hc : c ≠ '}' := fun e => h (e ▸ List.mem_cons_self c cs)
    have hcs : '}' ∉ cs := fun m => h (List.mem_cons_of_mem c m)
    cases cs with
    | nil => simp [readKey, hc]
    | cons d ds =>
      have hrec := ih hcs
      simp only [List.cons_append] at hrec ⊢
      rw [readKey]
      simp [hc, hrec]

/-- The renderer leaves nothing behind on empty input, whatever the fuel. -/
theorem renderChars_nil (vars : VarMap) (fuel : Nat) : renderChars vars fuel [] = [] := by
  cases fuel <;> rfl

/-- A character outside the escape set passes through the escaping
unchanged. -/
theorem escapeChar_plain (c : Char) (h : isEscapedChar c = false) : escapeChar c = [c] := by
  simp only [isEscapedChar, Bool.or_eq_false_iff, decide_eq_false_iff_not] at h
  obtain ⟨⟨⟨⟨⟨⟨h1, h2⟩, h3⟩, h4⟩, h5⟩, h6⟩, h7⟩ := h
  simp [escapeChar, h1, h2, h3, h4, h5, h6, h7]

/-- A string with no character of the escape set is its own escaping. -/
theorem htmlEscape_eq_self (s : String) (h : ∀ c ∈ s.data, isEscapedChar c = false) :
    htmlEscape s = s := by
  have hfold : ∀ l : List Char, (∀ c ∈ l, isEscapedChar c = false) →
      l.foldr (fun c acc => escapeChar c ++ acc) [] = l := by
    intro l hl
    induction l with
    | nil => rfl
    | cons c cs ih =>
      rw [List.foldr_cons, ih (fun x hx => hl x (List.mem_cons_of_mem c hx)),
        escapeChar_plain c (hl c (List.mem_cons_self c cs))]
      rfl
  rw [htmlEscape, hfold s.data h]

/-- An identifier character is not mustache whitespace. -/
theorem identChar_not_ws (c : Char) (h : isIdentChar c = true) : isWsChar c = false := by
  cases hw : isWsChar c with
  | false => rfl
  | true =>
    exfalso
    simp only [isWsChar, Bool.or_eq_true, decide_eq_true_eq] at hw
    rcases hw with ((hw | hw) | hw) | hw <;> subst hw <;> simp [isIdentChar] at h

/-- Dropping mustache whitespace leaves a list of identifier characters
untouched. -/
theorem dropWhile_ws_ident (l : List Char) (h : ∀ c ∈ l, isIdentChar c = true) :
    l.dropWhile isWsChar = l := by
  cases l with
  | nil => rfl
  | cons c cs =>
    rw [List.dropWhile_cons, identChar_not_ws c (h c (List.mem_cons_self c cs))]
    simp

/-- A plain identifier key consists of identifier characters. -/
theorem simpleKey_all_ident (key : List Char) (h : simpleKey key = true) :
    ∀ c ∈ key, isIdentChar c = true := by
  cases key with
  | nil => simp [simpleKey] at h
  | cons c cs =>
    simp only [simpleKey, Bool.and_eq_true, List.all_eq_true] at h
    exact h.1.2

/-- A plain identifier key contains no closing brace. -/
theorem simpleKey_no_brace (key : List Char) (h : simpleKey key = true) : '}' ∉ key := by
  intro hm
  exact absurd (simpleKey_all_ident key h _ hm) (by decide)

/-- A plain identifier key is its own trimming. -/
theorem simpleKey_trim (key : List Char) (h : simpleKey key = true) : trimKey key = key := by
  have hall := simpleKey_all_ident key h
  rw [trimKey, dropWhile_ws_ident key hall,
    dropWhile_ws_ident key.reverse (fun c hc => hall c (List.mem_reverse.mp hc)),
    List.reverse_reverse]

/-- Rendering a file that consists of a single flat placeholder yields the
escaping of the trimmed key's value, or the empty string when the key is
absent. -/
theorem render_single_placeholder (vars : VarMap) (key : List Char) (hk : '}' ∉ key) :
    render vars ⟨'{' :: '{' :: (key ++ '}' :: '}' :: [])⟩ =
      htmlEscape ((lookupAssoc vars ⟨trimKey key⟩).getD "") := by
  show String.mk (renderChars vars (('{' :: '{' :: (key ++ '}' :: '}' :: [])).length)
      ('{' :: '{' :: (key ++ '}' :: '}' :: []))) =
    htmlEscape ((lookupAssoc vars ⟨trimKey key⟩).getD "")
  have hlen : ('{' :: '{' :: (key ++ '}' :: '}' :: [])).length = (key.length + 3) + 1 := by
    simp [List.length_append]
  rw [hlen, renderChars, readKey_closes key [] hk]
  simp [renderChars_nil]

/-- The merged variable object binds `projectName` to the injected name
whenever the caller's config does not itself bind it. -/
theorem mergedVars_projectName_default (name : String) (config : VarMap)
    (h : lookupAssoc config "projectName" = none) :
    lookupAssoc (mergedVars name config) "projectName" = some name := by
  induction config with
  | nil => rfl
  | cons p ps ih =>
    rw [lookupAssoc] at h
    by_cases hp : p.1 = "projectName"
    · simp [hp] at h
    · rw [if_neg hp] at h
      simpa [mergedVars, lookupAssoc, hp] using ih h

/-- A `projectName` entry of the caller's config shadows the injected name in
the merged variable object. -/
theorem mergedVars_projectName_override (name v : String) (config : VarMap)
    (h : lookupAssoc config "projectName" = some v) :
    lookupAssoc (mergedVars name config) "projectName" = some v := by
  induction config with
  | nil => simp [lookupAssoc] at h
  | cons p ps ih =>
    rw [lookupAssoc] at h
    by_cases hp : p.1 = "projectName"
    · rw [if_pos hp] at h
      simp [mergedVars, lookupAssoc, hp, h]
    · rw [if_neg hp] at h
      simpa [mergedVars, lookupAssoc, hp] using ih h

/-- The fixed `projectName` placeholder file renders to the escaping of
whatever the variable object binds `projectName` to, or to the empty string
without such a binding. -/
theorem render_placeholderProjectName (vars : VarMap) :
    render vars placeholderProjectName =
      htmlEscape ((lookupAssoc vars "projectName").getD "") := by
  have hdata : placeholderProjectName =
      String.mk ('{' :: '{' :: ("projectName".data ++ '}' :: '}' :: [])) := by decide
  have htrim : String.mk (trimKey "projectName".data) = "projectName" := by decide
  rw [hdata, render_single_placeholder vars "projectName".data (by decide), htrim]

/-! ## Helper lemmas: event classification -/

/-- Catalog file-system reads are not remote calls. -/
theorem Event.isCatalogFs_not_remote (e : Event) (h : e.isCatalogFs = true) :
    e.isRemote = false := by
  cases e <;> simp_all [Event.isCatalogFs, Event.isRemote]

/-- The catalog loop performs only manifest reads. -/
theorem loadTemplates_events_catalog (ms : List (String × Manifest)) (folders : List String) :
    ∀ e ∈ (loadTemplates ms folders).2, e.isCatalogFs = true := by
  induction folders with
  | nil => simp [loadTemplates]
  | cons f fs ih =>
    intro e he
    rw [loadTemplates] at he
    rcases hm : lookupAssoc ms f with _ | m <;> rw [hm] at he <;>
      simp only [List.mem_cons] at he <;>
      rcases he with rfl | he
    · rfl
    · exact ih e he
    · rfl
    · exact ih e he

/-- The catalog read, cached or not, performs only catalog file-system
accesses. -/
theorem getTemplates_events_catalog (cache : Option (List Template)) (tfs : TemplatesFs) :
    ∀ e ∈ (getTemplates cache tfs).2.2, e.isCatalogFs = true := by
  cases cache with
  | some ts => simp [getTemplates]
  | none =>
    intro e he
    rw [getTemplates] at he
    rcases hl : tfs.rootListing with _ | folders <;>
      simp only [getTemplatesFs, hl, List.mem_cons] at he
    · rcases he with rfl | he
      · rfl
      · simp at he
    · rcases he with rfl | he
      · rfl
      · exact loadTemplates_events_catalog tfs.manifests folders e he

mutual
/-- One repository-path walk step performs only file-system reads. -/
theorem processEntryRepo_events_fs (vars : VarMap) :
    ∀ (e : FsEntry) (fp ap : String),
      ∀ ev ∈ (processEntryRepo vars e fp ap).2, ev.isRemote = false
  | .file n c, fp, ap => by simp [processEntryRepo, Event.isRemote]
  | .dir n es, fp, ap => by
    intro ev hev
    rw [processEntryRepo] at hev
    simp only [List.mem_cons] at hev
    rcases hev with rfl | hev
    · rfl
    · exact processDirectoryRepo_events_fs vars es (joinPath fp n) (joinPath ap n) ev hev

/-- The repository-path walker performs only file-system reads. -/
theorem processDirectoryRepo_events_fs (vars : VarMap) :
    ∀ (tree : List FsEntry) (fp ap : String),
      ∀ ev ∈ (processDirectoryRepo vars tree fp ap).2, ev.isRemote = false
  | [], _, _ => by simp [processDirectoryRepo]
  | e :: rest, fp, ap => by
    intro ev hev
    rw [processDirectoryRepo] at hev
    simp only [List.mem_append] at hev
    rcases hev with hev | hev
    · exact processEntryRepo_events_fs vars e fp ap ev hev
    · exact processDirectoryRepo_events_fs vars rest fp ap ev hev
end

/-! ## Helper lemmas: run selection and sealing -/

/-- When the first run's creation time dominates the rest — the
reverse-chronological order the remote is trusted to use — the first run is
the most recently created one. -/
theorem mostRecentRun_head (r : WorkflowRun) (rs : List WorkflowRun)
    (h : ∀ x ∈ rs, x.createdAt ≤ r.createdAt) :
    mostRecentRun (r :: rs) = some r := by
  rw [mostRecentRun]
  congr 1
  induction rs with
  | nil => rfl
  | cons b bs ih =>
    have hb : ¬ r.createdAt < b.createdAt := not_lt.mpr (h b (List.mem_cons_self b bs))
    rw [List.foldl_cons, if_neg hb]
    exact ih (fun x hx => h x (List.mem_cons_of_mem b hx))

/-- A sealed secret value is never the plaintext: the sealed form is strictly
longer. -/
theorem sealSecret_ne (publicKey plain : String) : sealSecret publicKey plain ≠ plain := by
  intro h
  have hl := congrArg String.length h
  rw [sealSecret, String.length_append, String.length_append, String.length_append] at hl
  have h7 : ("sealed:" : String).length = 7 := rfl
  have h1 : (":" : String).length = 1 := rfl
  rw [h7, h1] at hl
  omega

/-! ## Claim C2 -/

/-- C2, counterexample: rendering a file that references an absent key neither
raises an error nor leaves the placeholder verbatim — the engine silently
substitutes the empty string. -/
theorem unresolved_placeholder_cx :
    render [] "\x7b\x7bmissing\x7d\x7d" ≠ "\x7b\x7bmissing\x7d\x7d" ∧
    render [] "\x7b\x7bmissing\x7d\x7d" = "" := by
  constructor <;> decide

/-- C2, amended: a plain-identifier placeholder whose key is absent from the
variable map is silently replaced by the empty string, and the same policy
holds on both the archive path and the repository path (both walkers call the
same engine); rendering such a placeholder never raises and never leaves the
placeholder verbatim. -/
theorem unresolved_placeholder_renders_empty (vars : VarMap) (key : List Char)
    (f d1 : String) (hk : simpleKey key = true)
    (hmiss : lookupAssoc vars ⟨key⟩ = none) :
    render vars ⟨'{' :: '{' :: (key ++ '}' :: '}' :: [])⟩ = "" ∧
    (processDirectoryArchive vars
        [FsEntry.file f ⟨'{' :: '{' :: (key ++ '}' :: '}' :: [])⟩] d1 "").1 = [(f, "")] ∧
    (processDirectoryRepo vars
        [FsEntry.file f ⟨'{' :: '{' :: (key ++ '}' :: '}' :: [])⟩] d1 "").1 = [(f, "")] := by
  have h := render_single_placeholder vars key (simpleKey_no_brace key hk)
  rw [simpleKey_trim key hk, hmiss] at h
  simp only [Option.getD_none] at h
  rw [show htmlEscape "" = "" from rfl] at h
  refine ⟨h, ?_, ?_⟩ <;>
    simp [processDirectoryArchive, processDirectoryRepo, processEntryArchive, processEntryRepo, joinPath, h]

/-- C2 witness: the amended statement at a concrete absent key. -/
theorem unresolved_placeholder_renders_empty_witness :
    render [] ⟨'{' :: '{' :: ("missing".data ++ '}' :: '}' :: [])⟩ = "" ∧
    (processDirectoryArchive []
        [FsEntry.file "a.txt" ⟨'{' :: '{' :: ("missing".data ++ '}' :: '}' :: [])⟩]
        "templates/basic-api" "").1 = [("a.txt", "")] ∧
    (processDirectoryRepo []
        [FsEntry.file "a.txt" ⟨'{' :: '{' :: ("missing".data ++ '}' :: '}' :: [])⟩]
        "templates/basic-api" "").1 = [("a.txt", "")] :=
  unresolved_placeholder_renders_empty [] "missing".data "a.txt" "templates/basic-api"
    (by decide) (by decide)

/-! ## Claim C4 -/

/-- C4, counterexample: on a run list that is not in reverse-chronological
order, the handler reports the first run of the list even though the run with
the most recent creation time is a different one with a different status — the
list is not re-sorted defensively. -/
theorem workflow_status_first_cx :
    (getWorkflowStatus (some "tk") "o" "r" "ci.yml" (some cxRuns)).1 =
      StatusRes.runStatus "completed" (some "success") ∧
    mostRecentRun cxRuns =
      some { status := "in_progress", conclusion := none, createdAt := 2 } ∧
    ("completed" : String) ≠ "in_progress" := by
  refine ⟨by decide, by decide, by decide⟩

/-- C4, amended: the handler reports the status and conclusion of the first
run of the list exactly as the remote returned it; when the remote's list is
in reverse-chronological order (first run created last), that first run is the
one with the most recent creation time. -/
theorem workflow_status_reports_first (tok owner repo wid : String) (r : WorkflowRun)
    (rs : List WorkflowRun) (h : ∀ x ∈ rs, x.createdAt ≤ r.createdAt) :
    getWorkflowStatus (some tok) owner repo wid (some (r :: rs)) =
      (StatusRes.runStatus r.status r.conclusion,
       [Event.remoteListWorkflowRuns owner repo wid]) ∧
    mostRecentRun (r :: rs) = some r :=
  ⟨rfl, mostRecentRun_head r rs h⟩

/-- C4 witness: the amended statement on a reverse-chronological list. -/
theorem workflow_status_reports_first_witness :
    getWorkflowStatus (some "tk") "o" "r" "ci.yml"
        (some [{ status := "in_progress", conclusion := none, createdAt := 5 },
               { status := "completed", conclusion := some "success", createdAt := 3 }]) =
      (StatusRes.runStatus "in_progress" none,
       [Event.remoteListWorkflowRuns "o" "r" "ci.yml"]) ∧
    mostRecentRun [{ status := "in_progress", conclusion := none, createdAt := 5 },
                   { status := "completed", conclusion := some "success", createdAt := 3 }] =
      some { status := "in_progress", conclusion := none, createdAt := 5 } :=
  workflow_status_reports_first "tk" "o" "r" "ci.yml"
    { status := "in_progress", conclusion := none, createdAt := 5 }
    [{ status := "completed", conclusion := some "success", createdAt := 3 }]
    (by decide)

/-! ## Claim C5 -/

/-- C5: the code evaluated at the failing input — a directory "basic-api"
whose manifest carries an id entry "other".  The spread written after
`id: folder` lets the manifest override the folder-derived id, so the loaded
Template's id is "other", not the directory name. -/
theorem manifest_id_overrides_folder :
    (getTemplatesFs cxTfsIdOverride).1 =
      Except.ok [{ id := "other", fields := [("name", "Basic API")] }] ∧
    ("other" : String) ≠ "basic-api" := by
  refine ⟨rfl, by decide⟩

/-! ## Claim C6 -/

/-- C6, counterexample: the name "a&b" passes validation (it equals its own
basename), yet on both paths a file consisting of only the projectName
placeholder renders to the HTML-escaped "a&amp;b", not to the name itself —
the engine escapes interpolation output by default, so the exact round trip
fails. -/
theorem projectName_roundtrip_cx :
    basename "a&b" = "a&b" ∧
    (processDirectoryArchive (mergedVars "a&b" [])
        [FsEntry.file "pkg.json" placeholderProjectName] "templates/basic-api" "").1 =
      [("pkg.json", "a&amp;b")] ∧
    (processDirectoryRepo (mergedVars "a&b" [])
        [FsEntry.file "pkg.json" placeholderProjectName] "templates/basic-api" "").1 =
      [("pkg.json", "a&amp;b")] ∧
    ("a&amp;b" : String) ≠ "a&b" := by
  refine ⟨by decide, by decide, by decide, by decide⟩

/-- C6, amended: for every name that passes validation (equal to its own
basename) and every config that does not itself bind projectName, a template
file consisting of only a projectName placeholder renders to exactly the
HTML-escaped sanitized name on both the archive path and the repository path
(the engine's default escaping); that is exactly the sanitized name whenever
the name contains none of the escaped characters. -/
theorem projectName_roundtrip (name : String) (config : VarMap) (f d1 : String)
    (_hv : basename name = name)
    (hc : lookupAssoc config "projectName" = none) :
    (processDirectoryArchive (mergedVars name config)
        [FsEntry.file f placeholderProjectName] d1 "").1 = [(f, htmlEscape name)] ∧
    (processDirectoryRepo (mergedVars name config)
        [FsEntry.file f placeholderProjectName] d1 "").1 = [(f, htmlEscape name)] ∧
    ((∀ c ∈ name.data, isEscapedChar c = false) → htmlEscape name = name) := by
  have h := render_placeholderProjectName (mergedVars name config)
  rw [mergedVars_projectName_default name config hc] at h
  simp only [Option.getD_some] at h
  refine ⟨?_, ?_, fun hp => htmlEscape_eq_self name hp⟩ <;>
    simp [processDirectoryArchive, processDirectoryRepo, processEntryArchive, processEntryRepo, joinPath, h]

/-- C6 witness: the round trip at a concrete valid name free of escaped
characters. -/
theorem projectName_roundtrip_witness :
    (processDirectoryArchive (mergedVars "demo" [("projectDescription", "x")])
        [FsEntry.file "pkg.json" placeholderProjectName] "templates/basic-api" "").1 =
      [("pkg.json", htmlEscape "demo")] ∧
    (processDirectoryRepo (mergedVars "demo" [("projectDescription", "x")])
        [FsEntry.file "pkg.json" placeholderProjectName] "templates/basic-api" "").1 =
      [("pkg.json", htmlEscape "demo")] ∧
    ((∀ c ∈ ("demo" : String).data, isEscapedChar c = false) →
      htmlEscape "demo" = "demo") :=
  projectName_roundtrip "demo" [("projectDescription", "x")] "pkg.json" "templates/basic-api"
    (by decide) (by decide)

/-! ## Claim C7 -/

/-- C7, counterexample: with the empty secrets list the endpoint is not a
zero-remote-call no-op — it still fetches the repository public key, one
remote call. -/
theorem secrets_empty_list_cx :
    postSecrets (some "tk") "owner1" "repo1" (some []) (some { publicKey := "pk", keyId := "kid" }) =
      (SecretsRes.noContent, [Event.remoteGetPublicKey "owner1" "repo1"]) ∧
    (Event.remoteGetPublicKey "owner1" "repo1").isRemote = true ∧
    [Event.remoteGetPublicKey "owner1" "repo1"] ≠ ([] : List Event) := by
  refine ⟨by decide, by decide, by decide⟩

/-- C7, amended: for a secrets list of length n, exactly one public-key fetch
followed by exactly n secret-upsert calls is made, in list order, each upsert
carrying the value sealed against the repository public key and never the
plaintext; for the empty list zero upserts are made (the key fetch still
happens) and the response is still 204. -/
theorem secrets_sealed_upserts (tok owner repo pk kid : String)
    (secs : List (String × String)) :
    postSecrets (some tok) owner repo (some secs) (some { publicKey := pk, keyId := kid }) =
      (SecretsRes.noContent,
       Event.remoteGetPublicKey owner repo ::
         secs.map (fun s =>
           Event.remoteSecretUpsert owner repo s.1 (sealSecret pk s.2) kid)) ∧
    (secs.map (fun s =>
      Event.remoteSecretUpsert owner repo s.1 (sealSecret pk s.2) kid)).length = secs.length ∧
    ∀ s ∈ secs, sealSecret pk s.2 ≠ s.2 :=
  ⟨rfl, by simp, fun s _ => sealSecret_ne pk s.2⟩

/-! ## Claim C8 -/

/-- C8: after a first successful catalog read, the cache holds the result, and
any later call returns the same template sequence with no file-system access
at all — even if the file system has changed in between. -/
theorem listTemplates_memoized (tfs tfs2 : TemplatesFs) (ts : List Template)
    (c2 : Option (List Template)) (evs : List Event)
    (h : getTemplates none tfs = (Except.ok ts, c2, evs)) :
    c2 = some ts ∧ getTemplates c2 tfs2 = (Except.ok ts, some ts, []) := by
  rw [getTemplates] at h
  rcases hg : getTemplatesFs tfs with ⟨res, gevs⟩
  rw [hg] at h
  cases res with
  | ok ts2 =>
    simp only [Prod.mk.injEq, Except.ok.injEq] at h
    obtain ⟨h1, h2, h3⟩ := h
    subst h1
    subst h2
    exact ⟨rfl, rfl⟩
  | error e => simp at h

/-- C8 witness: the memoization at the concrete fixture file system. -/
theorem listTemplates_memoized_witness :
    (some cxCatalog : Option (List Template)) = some cxCatalog ∧
    getTemplates (some cxCatalog) cxTfs = (Except.ok cxCatalog, some cxCatalog, []) :=
  listTemplates_memoized cxTfs cxTfs cxCatalog (some cxCatalog)
    [Event.fsCatalogList, Event.fsManifestRead "basic-api"] rfl

/-! ## Claim C9 -/

/-- C9: a repository-creation request with an absent access token always
answers Unauthorized with an empty trace — no remote call and no file-system
access is attempted, whatever the rest of the request or the service state. -/
theorem createRepository_absent_token_unauthorized (name template : Option String)
    (config : VarMap) (st : SvcState) (env : RemoteEnv) :
    postRepositories none name template config st env = (RepoRes.unauthorized, st.cache, []) :=
  rfl

/-! ## Claim C10 -/

/-- C10: on both render paths the caller's config is spread after the injected
projectName binding, so a config entry for projectName shadows the injected
name: the merged map resolves projectName to the config's value, and a file
consisting of only a projectName placeholder renders to the engine's
HTML-escaping of that config value — not the injected name — on both paths. -/
theorem config_overrides_projectName (name v : String) (config : VarMap) (f d1 : String)
    (hc : lookupAssoc config "projectName" = some v) :
    lookupAssoc (mergedVars name config) "projectName" = some v ∧
    (processDirectoryArchive (mergedVars name config)
        [FsEntry.file f placeholderProjectName] d1 "").1 = [(f, htmlEscape v)] ∧
    (processDirectoryRepo (mergedVars name config)
        [FsEntry.file f placeholderProjectName] d1 "").1 = [(f, htmlEscape v)] := by
  have hm := mergedVars_projectName_override name v config hc
  have h := render_placeholderProjectName (mergedVars name config)
  rw [hm] at h
  simp only [Option.getD_some] at h
  refine ⟨hm, ?_, ?_⟩ <;>
    simp [processDirectoryArchive, processDirectoryRepo, processEntryArchive, processEntryRepo, joinPath, h]

/-- C10 witness: a concrete config overriding the injected project name. -/
theorem config_overrides_projectName_witness :
    lookupAssoc (mergedVars "demo" [("projectName", "shadow")]) "projectName" = some "shadow" ∧
    (processDirectoryArchive (mergedVars "demo" [("projectName", "shadow")])
        [FsEntry.file "pkg.json" placeholderProjectName] "templates/basic-api" "").1 =
      [("pkg.json", htmlEscape "shadow")] ∧
    (processDirectoryRepo (mergedVars "demo" [("projectName", "shadow")])
        [FsEntry.file "pkg.json" placeholderProjectName] "templates/basic-api" "").1 =
      [("pkg.json", htmlEscape "shadow")] :=
  config_overrides_projectName "demo" "shadow" [("projectName", "shadow")] "pkg.json"
    "templates/basic-api" (by decide)

/-! ## Claim C1 -/

/-- C1: every valid provisioning request — authenticated token, non-falsy name
and template id both equal to their own basename, template found in the
catalog, template directory readable — answers 201 with the created
repository's url, owner and repo, and its remote calls are exactly the
repository creation followed by one blob-create per rendered file, then one
tree-create with one entry per file, then one commit-create with an empty
parents list, then one ref-update pointing the default branch at that commit,
in that order. -/
theorem createRepository_protocol (tok n t : String) (config : VarMap)
    (st : SvcState) (env : RemoteEnv) (ts : List Template) (tpl : Template)
    (c2 : Option (List Template)) (evs : List Event) (tree : List FsEntry)
    (hne : n.isEmpty = false) (hte : t.isEmpty = false)
    (hbn : basename n = n) (hbt : basename t = t)
    (hgt : getTemplates st.cache st.tfs = (Except.ok ts, c2, evs))
    (hfind : ts.find? (fun tpl2 => tpl2.id == t) = some tpl)
    (htree : lookupAssoc st.trees (joinPath templatesDir t) = some tree) :
    (postRepositories (some tok) (some n) (some t) config st env).1 =
      RepoRes.created env.htmlUrl env.ownerLogin env.repoName ∧
    ((postRepositories (some tok) (some n) (some t) config st env).2.2).filter Event.isRemote =
      repoProtocolTrace n env
        (processDirectoryRepo (mergedVars n config) tree (joinPath templatesDir t) "").1 := by
  simp only [postRepositories, falsyStr, hne, hte, hgt, hfind, hbn, hbt, htree,
    Option.getD_some, Bool.false_eq_true, if_false]
  rw [if_neg (fun h => h rfl), if_neg (fun h => h rfl)]
  refine ⟨rfl, ?_⟩
  have hevs : evs.filter Event.isRemote = [] := by
    rw [List.filter_eq_nil_iff]
    intro e he
    have hc := getTemplates_events_catalog st.cache st.tfs e (by rw [hgt]; exact he)
    simp [Event.isCatalogFs_not_remote e hc]
  have hwalk : ((processDirectoryRepo (mergedVars n config) tree
      (joinPath templatesDir t) "").2).filter Event.isRemote = [] := by
    rw [List.filter_eq_nil_iff]
    intro e he
    simp [processDirectoryRepo_events_fs (mergedVars n config) tree
      (joinPath templatesDir t) "" e he]
  have hblob : (List.map (fun pc => Event.remoteCreateBlob env.ownerLogin n pc.2)
      (processDirectoryRepo (mergedVars n config) tree (joinPath templatesDir t) "").1).filter
        Event.isRemote =
      List.map (fun pc => Event.remoteCreateBlob env.ownerLogin n pc.2)
        (processDirectoryRepo (mergedVars n config) tree (joinPath templatesDir t) "").1 := by
    rw [List.filter_eq_self]
    intro e he
    rcases List.mem_map.mp he with ⟨pc, _, rfl⟩
    rfl
  simp [List.filter_append, List.filter_cons, hevs, hwalk, hblob, Event.isRemote,
    repoProtocolTrace]

/-- C1 witness: the protocol at a concrete warm-cache request. -/
theorem createRepository_protocol_witness :
    (postRepositories (some "tk") (some "demo") (some "basic-api") [] cxStateWarm cxEnv).1 =
      RepoRes.created cxEnv.htmlUrl cxEnv.ownerLogin cxEnv.repoName ∧
    ((postRepositories (some "tk") (some "demo") (some "basic-api") []
        cxStateWarm cxEnv).2.2).filter Event.isRemote =
      repoProtocolTrace "demo" cxEnv
        (processDirectoryRepo (mergedVars "demo" []) cxTree
          (joinPath templatesDir "basic-api") "").1 :=
  createRepository_protocol "tk" "demo" "basic-api" [] cxStateWarm cxEnv cxCatalog
    { id := "basic-api", fields := [("name", "Basic API"), ("description", "demo")] }
    (some cxCatalog) [] cxTree rfl rfl (by decide) (by decide) rfl rfl rfl

/-! ## Claim C3 -/

/-- C3, counterexample: with a cold cache, a request whose name contains a
path separator reads the template catalog from the file system and only then
returns the validation error — the error does not come before all file-system
access; and the name "..", which contains a parent-directory segment but
equals its own basename, is not rejected at all (the request proceeds to the
archive). -/
theorem traversal_validation_cx :
    (postProjects (some "a/b") (some "basic-api") [] cxStateCold).1 =
      ProjRes.badRequest "Invalid project name. Path traversal characters are not allowed." ∧
    Event.fsCatalogList ∈ (postProjects (some "a/b") (some "basic-api") [] cxStateCold).2.2 ∧
    (postProjects (some "..") (some "basic-api") [] cxStateWarm).1 =
      ProjRes.archive "...zip" [("pkg.json", "hi")] := by
  refine ⟨by decide, by decide, by decide⟩

/-- C3, amended: a request whose name or template id differs from its own
basename is answered with a 400 client error by both name-accepting entry
points, with no remote call and no template-directory or template-file read —
but the template-catalog listing and manifest reads may happen (on a cache
miss) before the error is returned. -/
theorem traversal_validation_amended (n t tok : String) (config : VarMap) (st : SvcState)
    (env : RemoteEnv) (ts : List Template) (c2 : Option (List Template)) (evs : List Event)
    (hne : n.isEmpty = false) (hte : t.isEmpty = false)
    (hgt : getTemplates st.cache st.tfs = (Except.ok ts, c2, evs))
    (htrav : basename n ≠ n ∨ basename t ≠ t) :
    (∃ msg, (postProjects (some n) (some t) config st).1 = ProjRes.badRequest msg) ∧
    (∃ msg, (postRepositories (some tok) (some n) (some t) config st env).1 =
      RepoRes.badRequest msg) ∧
    (∀ e ∈ (postProjects (some n) (some t) config st).2.2,
      e.isCatalogFs = true ∧ e.isRemote = false) ∧
    (∀ e ∈ (postRepositories (some tok) (some n) (some t) config st env).2.2,
      e.isCatalogFs = true ∧ e.isRemote = false) := by
  have hevs : ∀ e ∈ evs, e.isCatalogFs = true ∧ e.isRemote = false := by
    intro e he
    have hc := getTemplates_events_catalog st.cache st.tfs e (by rw [hgt]; exact he)
    exact ⟨hc, Event.isCatalogFs_not_remote e hc⟩
  have main : ∃ m1 m2,
      postProjects (some n) (some t) config st = (ProjRes.badRequest m1, c2, evs) ∧
      postRepositories (some tok) (some n) (some t) config st env =
        (RepoRes.badRequest m2, c2, evs) := by
    rcases hf : ts.find? (fun tpl2 => tpl2.id == t) with _ | tpl
    · refine ⟨"Invalid template specified", "Invalid template specified", ?_, ?_⟩ <;>
        simp only [postProjects, postRepositories, falsyStr, hne, hte, hgt, hf,
          Option.getD_some, Bool.false_eq_true, if_false]
    · by_cases hn : basename n = n
      · have ht : basename t ≠ t := by
          rcases htrav with h | h
          · exact absurd hn h
          · exact h
        refine ⟨"Invalid template name. Path traversal characters are not allowed.",
            "Invalid template name. Path traversal characters are not allowed.", ?_, ?_⟩ <;>
          · simp only [postProjects, postRepositories, falsyStr, hne, hte, hgt, hf,
              Option.getD_some, Bool.false_eq_true, if_false]
            rw [if_neg (fun h2 => h2 hn), if_pos ht]
      · refine ⟨"Invalid project name. Path traversal characters are not allowed.",
            "Invalid project name. Path traversal characters are not allowed.", ?_, ?_⟩ <;>
          · simp only [postProjects, postRepositories, falsyStr, hne, hte, hgt, hf,
              Option.getD_some, Bool.false_eq_true, if_false]
            rw [if_pos hn]
  obtain ⟨m1, m2, hp, hr⟩ := main
  refine ⟨⟨m1, by rw [hp]⟩, ⟨m2, by rw [hr]⟩, ?_, ?_⟩
  · rw [hp]
    exact fun e he => hevs e he
  · rw [hr]
    exact fun e he => hevs e he

/-- C3 witness: the amended statement at a concrete cold-cache request with a
separator in the name. -/
theorem traversal_validation_amended_witness :
    (∃ msg, (postProjects (some "a/b") (some "basic-api") [] cxStateCold).1 =
      ProjRes.badRequest msg) ∧
    (∃ msg, (postRepositories (some "tk") (some "a/b") (some "basic-api") []
      cxStateCold cxEnv).1 = RepoRes.badRequest msg) ∧
    (∀ e ∈ (postProjects (some "a/b") (some "basic-api") [] cxStateCold).2.2,
      e.isCatalogFs = true ∧ e.isRemote = false) ∧
    (∀ e ∈ (postRepositories (some "tk") (some "a/b") (some "basic-api") []
      cxStateCold cxEnv).2.2, e.isCatalogFs = true ∧ e.isRemote = false) :=
  traversal_validation_amended "a/b" "basic-api" "tk" [] cxStateCold cxEnv cxCatalog
    (some cxCatalog) [Event.fsCatalogList, Event.fsManifestRead "basic-api"]
    rfl rfl rfl (Or.inl (by decide))

end Rainar
